import Mathlib

/-!
# Verification of the odmpy EPUB assembly engine

A shallow embedding of the core logic of `odmpy/processing/ebook.py`
(spine ordering, content filtering, manifest accumulation, magazine CSS
patching, NCX synthesis, and structural XHTML cleanup), together with
theorems settling the specified properties.
-/

namespace Odmpy

/-! ## Spine entries and the spine sort (`_sort_spine_entries`)

An openbook spine entry carries `-odread-original-path` and
`-odread-spine-position`.  Paths are opaque tokens compared for equality,
so the embedding is polymorphic in the path type. -/

structure SpineEntry (α : Type) where
  originalPath : α
  spinePosition : Nat
deriving DecidableEq, Repr

/-- `toc_pages.index(path)` with the `except ValueError: 999` fallback of
`_sort_spine_entries`: the index of the first occurrence of `p` in
`tocPages`, or the literal sentinel `999` when absent. -/
def tocIndex {α : Type} [DecidableEq α] (tocPages : List α) (p : α) : Nat :=
  match tocPages.findIdx? (fun q => decide (q = p)) with
  | some i => i
  | none => 999

/-- The comparator `_sort_spine_entries(a, b, toc_pages)`: compares TOC
indices (sentinel 999 when a path is absent from the TOC), falling back
to the catalog spine position.  Returns `-1` or `1` exactly as the
Python function does. -/
def sortSpineEntries {α : Type} [DecidableEq α] (tocPages : List α)
    (a b : SpineEntry α) : Int :=
  let aIndex := tocIndex tocPages a.originalPath
  let bIndex := tocIndex tocPages b.originalPath
  if aIndex ≠ bIndex then
    if aIndex < bIndex then -1 else 1
  else
    if a.spinePosition < b.spinePosition then -1 else 1

/-- The non-strict order induced by the comparator: `a` may stay before
`b` iff the comparator does not demand `b < a`.  A stable comparison
sort (Python's `sorted` with `cmp_to_key`) returns the unique stable
order for this relation. -/
def spineLe {α : Type} [DecidableEq α] (tocPages : List α)
    (a b : SpineEntry α) : Bool :=
  sortSpineEntries tocPages b a ≠ -1

/-- `sorted(spine_entries, key=cmp_to_key(lambda a, b: _sort_spine_entries(a, b, toc_pages)))`:
Python's `sorted` is a stable comparison sort, modelled by the stable
`List.insertionSort` under the induced non-strict order (a stable sort's
output is determined by that order together with the input order). -/
def sortSpine {α : Type} [DecidableEq α] (tocPages : List α)
    (entries : List (SpineEntry α)) : List (SpineEntry α) :=
  entries.insertionSort (fun a b => spineLe tocPages a b = true)

theorem spineLe_iff {α : Type} [DecidableEq α] (toc : List α) (a b : SpineEntry α) :
    spineLe toc a b = true ↔
      (tocIndex toc a.originalPath < tocIndex toc b.originalPath ∨
        (tocIndex toc a.originalPath = tocIndex toc b.originalPath ∧
          a.spinePosition ≤ b.spinePosition)) := by
  unfold spineLe sortSpineEntries
  split_ifs with h1 _h2 _h3 <;>
    simp only [ne_eq, decide_not] at * <;>
    first
      | (constructor <;> intro hx <;> omega)
      | (constructor <;> intro hx <;> simp_all <;> omega)

theorem spineLe_trans {α : Type} [DecidableEq α] (toc : List α)
    (a b c : SpineEntry α) (hab : spineLe toc a b) (hbc : spineLe toc b c) :
    spineLe toc a c = true := by
  rw [spineLe_iff] at *
  omega

theorem spineLe_total {α : Type} [DecidableEq α] (toc : List α)
    (a b : SpineEntry α) : spineLe toc a b || spineLe toc b a := by
  have h1 := spineLe_iff toc a b
  have h2 := spineLe_iff toc b a
  by_cases h : spineLe toc a b = true
  · simp [h]
  · have hf : spineLe toc a b = false := by
      simpa using h
    rw [hf] at h1
    simp only [Bool.false_eq_true, false_iff] at h1
    push_neg at h1
    have hba : spineLe toc b a = true := by
      rw [h2]
      omega
    simp [hba]

theorem sortSpine_pairwise {α : Type} [DecidableEq α] (toc : List α)
    (entries : List (SpineEntry α)) :
    (sortSpine toc entries).Pairwise (fun a b => spineLe toc a b = true) := by
  haveI : IsTotal (SpineEntry α) (fun a b => spineLe toc a b = true) :=
    ⟨fun a b => by
      have h := spineLe_total toc a b
      rcases Bool.or_eq_true_iff.mp h with h | h
      · exact Or.inl h
      · exact Or.inr h⟩
  haveI : IsTrans (SpineEntry α) (fun a b => spineLe toc a b = true) :=
    ⟨fun a b c => spineLe_trans toc a b c⟩
  exact List.sorted_insertionSort _ entries

theorem tocIndex_lt_of_mem {α : Type} [DecidableEq α] {toc : List α} {p : α}
    (h : p ∈ toc) : tocIndex toc p < toc.length := by
  unfold tocIndex
  cases hf : toc.findIdx? (fun q => decide (q = p)) with
  | none =>
      exfalso
      rw [List.findIdx?_eq_none_iff] at hf
      have := hf p h
      simp at this
  | some i =>
      rw [List.findIdx?_eq_some_iff_findIdx_eq] at hf
      exact hf.1

theorem tocIndex_of_not_mem {α : Type} [DecidableEq α] {toc : List α} {p : α}
    (h : p ∉ toc) : tocIndex toc p = 999 := by
  unfold tocIndex
  cases hf : toc.findIdx? (fun q => decide (q = p)) with
  | none => rfl
  | some i =>
      exfalso
      rw [List.findIdx?_eq_some_iff_getElem] at hf
      obtain ⟨hlt, hp, -⟩ := hf
      simp only [decide_eq_true_eq] at hp
      exact h (hp ▸ List.getElem_mem hlt)

/-- C1 (amended): whenever the ordered TOC page list has at most 999
pages (so that every real TOC index is below the comparator's fixed
sentinel `999`), the spine sort places every entry whose path is absent
from the TOC after every entry whose path is present, and entries absent
from the TOC appear among themselves in ascending catalog spine
position. -/
theorem sortSpine_unmatched_after_matched {α : Type} [DecidableEq α]
    (toc : List α) (entries : List (SpineEntry α))
    (htoc : toc.length ≤ 999) :
    (sortSpine toc entries).Pairwise (fun x y =>
      (y.originalPath ∈ toc → x.originalPath ∈ toc) ∧
      (x.originalPath ∉ toc → y.originalPath ∉ toc →
        x.spinePosition ≤ y.spinePosition)) := by
  refine (sortSpine_pairwise toc entries).imp ?_
  intro x y hxy
  rw [spineLe_iff] at hxy
  constructor
  · intro hy
    by_contra hx
    have h1 := tocIndex_lt_of_mem hy
    have h2 := tocIndex_of_not_mem hx
    omega
  · intro hx hy
    have h1 := tocIndex_of_not_mem hx
    have h2 := tocIndex_of_not_mem hy
    omega

theorem sortSpine_unmatched_after_matched_witness :
    ([0, 1] : List Nat).length ≤ 999 ∧
    (sortSpine [0, 1] [⟨5, 0⟩, ⟨0, 1⟩, ⟨1, 2⟩]).Pairwise
      (fun x y : SpineEntry Nat =>
        (y.originalPath ∈ [0, 1] → x.originalPath ∈ [0, 1]) ∧
        (x.originalPath ∉ [0, 1] → y.originalPath ∉ [0, 1] →
          x.spinePosition ≤ y.spinePosition)) :=
  ⟨by decide, sortSpine_unmatched_after_matched [0, 1] [⟨5, 0⟩, ⟨0, 1⟩, ⟨1, 2⟩]
    (by decide)⟩

set_option maxRecDepth 100000 in
/-- C1 (counterexample): with a 1000-page TOC the comparator's fixed
sentinel `999` collides with the real TOC index 999, so an entry that is
absent from the TOC but has a smaller spine position is sorted *before*
the entry whose path sits at TOC index 999 — refuting the claim for
arbitrary TOC page lists. -/
theorem sortSpine_sentinel_counterexample :
    (SpineEntry.mk 1000 0).originalPath ∉ List.range 1000 ∧
    (SpineEntry.mk 999 1).originalPath ∈ List.range 1000 ∧
    sortSpine (List.range 1000)
        [SpineEntry.mk 1000 0, SpineEntry.mk 999 1] =
      [SpineEntry.mk 1000 0, SpineEntry.mk 999 1] := by
  refine ⟨by decide, by decide, ?_⟩
  decide

/-- C2: if entry `P`'s path first occurs at TOC index `i` and entry
`Q`'s path at TOC index `j` with `i < j`, and both entries are in the
catalog spine list, then `P` precedes `Q` in the sorted spine. -/
theorem sortSpine_respects_toc_order {α : Type} [DecidableEq α]
    (toc : List α) (entries : List (SpineEntry α)) (P Q : SpineEntry α)
    (i j : Nat)
    (hP : P ∈ entries) (hQ : Q ∈ entries)
    (hi : toc.findIdx? (fun q => decide (q = P.originalPath)) = some i)
    (hj : toc.findIdx? (fun q => decide (q = Q.originalPath)) = some j)
    (hij : i < j) :
    (sortSpine toc entries).indexOf P < (sortSpine toc entries).indexOf Q := by
  have hiP : tocIndex toc P.originalPath = i := by
    unfold tocIndex
    rw [hi]
  have hjQ : tocIndex toc Q.originalPath = j := by
    unfold tocIndex
    rw [hj]
  have hPQ : P ≠ Q := by
    intro h
    rw [h, hjQ] at hiP
    omega
  have hPout : P ∈ sortSpine toc entries := by
    unfold sortSpine
    exact (List.mem_insertionSort _).mpr hP
  have hQout : Q ∈ sortSpine toc entries := by
    unfold sortSpine
    exact (List.mem_insertionSort _).mpr hQ
  set l := sortSpine toc entries with hl
  have hnP : l.indexOf P < l.length := List.indexOf_lt_length.mpr hPout
  have hnQ : l.indexOf Q < l.length := List.indexOf_lt_length.mpr hQout
  have hgetP : l.get ⟨l.indexOf P, hnP⟩ = P := List.indexOf_get hnP
  have hgetQ : l.get ⟨l.indexOf Q, hnQ⟩ = Q := List.indexOf_get hnQ
  have hpw := List.pairwise_iff_get.mp (sortSpine_pairwise toc entries)
  rcases Nat.lt_trichotomy (l.indexOf P) (l.indexOf Q) with h | h | h
  · exact h
  · exfalso
    apply hPQ
    rw [← hgetP, ← hgetQ]
    congr 1
    exact Fin.ext h
  · exfalso
    have := hpw ⟨l.indexOf Q, hnQ⟩ ⟨l.indexOf P, hnP⟩ h
    rw [hgetP, hgetQ, spineLe_iff, hiP, hjQ] at this
    omega

theorem sortSpine_respects_toc_order_witness :
    sortSpine ["c", "a"]
        [SpineEntry.mk "a" 0, SpineEntry.mk "b" 1, SpineEntry.mk "c" 2] =
      [SpineEntry.mk "c" 2, SpineEntry.mk "a" 0, SpineEntry.mk "b" 1] ∧
    (sortSpine ["c", "a"]
        [SpineEntry.mk "a" 0, SpineEntry.mk "b" 1, SpineEntry.mk "c" 2]).indexOf
        (SpineEntry.mk "c" 2) <
      (sortSpine ["c", "a"]
        [SpineEntry.mk "a" 0, SpineEntry.mk "b" 1, SpineEntry.mk "c" 2]).indexOf
        (SpineEntry.mk "a" 0) :=
  ⟨by decide,
    sortSpine_respects_toc_order ["c", "a"]
      [SpineEntry.mk "a" 0, SpineEntry.mk "b" 1, SpineEntry.mk "c" 2]
      (SpineEntry.mk "c" 2) (SpineEntry.mk "a" 0) 0 1
      (by decide) (by decide) (by decide) (by decide) (by decide)⟩

/-! ## The content selector (`_filter_content`)

A roster entry as seen by `_filter_content`: the parsed URL path
(including its leading slash, as returned by `urlparse`) together with
the media type guessed from that path (`mimetypes.guess_type`, i.e. the
spec's `mediaTypeHint`; `none` when no type can be guessed). -/

structure RemoteEntry where
  path : String
  mediaType : Option String
deriving DecidableEq, Repr

/-- Character-level test that `s` begins with the pattern `ps`. -/
def charsStartWith : List Char → List Char → Bool
  | [], _ => true
  | _ :: _, [] => false
  | p :: ps, c :: cs => p == c && charsStartWith ps cs

/-- `s.startswith(pre)` on Python strings (character sequences). -/
def strStartsWith (s pre : String) : Bool :=
  charsStartWith pre.data s.data

/-- `s[1:]` on a Python string. -/
def dropFirst (s : String) : String :=
  String.mk (s.data.drop 1)

/-- Python truthiness of an optional string (`None` and `""` are falsy). -/
def strTruthy : Option String → Bool
  | some s => decide (s ≠ "")
  | none => false

/-- `_filter_content(entry, media_info, toc_pages)`.  The Python body is
a sequence of early `return False` checks; it is flattened here into the
disjunction of the drop conditions, in source order:
magazine-and-guessable-type gates the two magazine rules (paginated
image/thumbnail prefixes, XHTML not in the TOC page set), and the
`/_d/` internal-asset prefix always drops. -/
def filterContent (isMagazine : Bool) (tocPages : List String)
    (e : RemoteEntry) : Bool :=
  let mt := e.mediaType.getD ""
  let magazineDrop :=
    isMagazine && strTruthy e.mediaType &&
      ((strStartsWith mt "image/" &&
          (strStartsWith e.path "/pages/" || strStartsWith e.path "/thumbnails/")) ||
        (decide (mt = "application/xhtml+xml") &&
          !(decide (dropFirst e.path ∈ tocPages))))
  if magazineDrop then false
  else if strStartsWith e.path "/_d/" then false
  else true

/-- C4 (amended): a magazine roster entry whose path begins with
`/pages/` or `/thumbnails/` is dropped by `_filter_content` *provided*
its guessed media type is an image type (`image/…`). -/
theorem filterContent_drops_paginated_images
    (toc : List String) (e : RemoteEntry) (mt : String)
    (hmt : e.mediaType = some mt)
    (himg : strStartsWith mt "image/" = true)
    (hpath : strStartsWith e.path "/pages/" = true ∨
      strStartsWith e.path "/thumbnails/" = true) :
    filterContent true toc e = false := by
  have hne : mt ≠ "" := by
    intro h
    rw [h] at himg
    simp [strStartsWith, charsStartWith] at himg
  rcases hpath with hp | hp <;>
    simp [filterContent, strTruthy, hmt, himg, hne, hp]

/-- C4 (witness): the claim's magazine scenario — three image entries
under `/pages/`, one XHTML entry in the TOC and one not — retains
exactly the TOC-listed XHTML entry, and the theorem drops the first
image entry. -/
theorem filterContent_drops_paginated_images_witness :
    List.filter
        (filterContent true ["articles/a1.xhtml"])
        [RemoteEntry.mk "/pages/0001.jpg" (some "image/jpeg"),
          RemoteEntry.mk "/pages/0002.jpg" (some "image/jpeg"),
          RemoteEntry.mk "/pages/0003.jpg" (some "image/jpeg"),
          RemoteEntry.mk "/articles/a1.xhtml" (some "application/xhtml+xml"),
          RemoteEntry.mk "/articles/a2.xhtml" (some "application/xhtml+xml")] =
      [RemoteEntry.mk "/articles/a1.xhtml" (some "application/xhtml+xml")] ∧
    filterContent true ["articles/a1.xhtml"]
        (RemoteEntry.mk "/pages/0001.jpg" (some "image/jpeg")) = false :=
  ⟨by decide,
    filterContent_drops_paginated_images ["articles/a1.xhtml"]
      (RemoteEntry.mk "/pages/0001.jpg" (some "image/jpeg")) "image/jpeg"
      rfl (by decide) (Or.inl (by decide))⟩

/-- C4 (counterexample): a magazine entry under `/pages/` whose guessed
media type is not an image type (`/pages/style.css` guesses `text/css`)
is *retained* by `_filter_content`, refuting the unconditional claim
that every `/pages/`-prefixed entry is dropped. -/
theorem filterContent_pages_counterexample :
    strStartsWith
        (RemoteEntry.mk "/pages/style.css" (some "text/css")).path "/pages/" = true ∧
    filterContent true []
        (RemoteEntry.mk "/pages/style.css" (some "text/css")) = true := by
  constructor <;> decide

/-- C10: when `mimetypes.guess_type` yields no media type, both
magazine-only rules are skipped and the entry is retained exactly when
its path does not start with the internal-asset prefix `/_d/`. -/
theorem filterContent_no_guessable_type (tocPages : List String) (path : String) :
    filterContent true tocPages (RemoteEntry.mk path none) =
      !(strStartsWith path "/_d/") := by
  simp only [filterContent, strTruthy]
  simp

/-! ## Manifest accumulation in `process_ebook_loan`

The per-entry loop appends one manifest row per processed roster entry
and, after the loop, synthesizes a nav row and/or an NCX row when the
`has_nav` / `has_ncx` flags stayed false. -/

/-- `"application/xhtml+xml"`. -/
def xhtmlType : String := "application/xhtml+xml"

/-- `"application/x-dtbncx+xml"`. -/
def ncxMediaType : String := "application/x-dtbncx+xml"

/-- One roster entry as seen by the processing loop, after fetch/patch:
its content-root-relative path (`parsed_entry_url.path[1:]`), its
guessed media type, and the two facts inspected on XHTML documents
(presence of any `svg` element; presence of an element with
`epub:type="toc"`). -/
structure ProcessedEntry where
  path : String
  mediaType : Option String
  hasSvg : Bool
  hasTocNav : Bool
deriving DecidableEq, Repr

/-- One row of the OPF manifest. -/
structure ManifestEntry where
  href : String
  id : String
  mediaType : Option String
  properties : Option String
deriving DecidableEq, Repr

/-- Modelled from the spec: `slugify` (defined in `odmpy/utils.py`,
which is not among the sources under verification) normalizes a path to
a safe token; modelled as lowercasing alphanumeric characters and
mapping every other character to an underscore. -/
def slugify (s : String) : String :=
  String.mk (s.data.map fun c => if c.isAlphanum then c.toLower else '_')

/-- `_sanitise_opf_id`: slugify, then prefix `id_` when the first
character is a digit (OPF ids cannot start with a number). -/
def sanitiseOpfId (stringId : String) : String :=
  let t := slugify stringId
  if t.front.isDigit then "id_" ++ t else t

/-- The id recorded for a processed entry (lines 354-356): the literal
`ncx` for an NCX-typed entry, else the sanitised relative path. -/
def opfIdFor (e : ProcessedEntry) : String :=
  if e.mediaType = some ncxMediaType then "ncx" else sanitiseOpfId e.path

/-- The manifest row recorded for one processed entry (lines 352-358
plus the property checks at 369-377 / 410-415): for an XHTML document,
`properties` is set to `svg` if it contains an `svg` element and then
overwritten by `nav` if it contains an `epub:type="toc"` element. -/
def manifestEntryFor (e : ProcessedEntry) : ManifestEntry :=
  { href := e.path
    id := opfIdFor e
    mediaType := e.mediaType
    properties :=
      if e.mediaType = some xhtmlType then
        if e.hasTocNav then some "nav"
        else if e.hasSvg then some "svg"
        else none
      else none }

/-- The `has_nav` flag after the loop: some processed XHTML document
contained an `epub:type="toc"` element. -/
def hasNavFlag (entries : List ProcessedEntry) : Bool :=
  entries.any fun e => decide (e.mediaType = some xhtmlType) && e.hasTocNav

/-- The `has_ncx` flag after the loop: some roster entry had the NCX
media type. -/
def hasNcxFlag (entries : List ProcessedEntry) : Bool :=
  entries.any fun e => decide (e.mediaType = some ncxMediaType)

/-- The manifest row synthesized for `nav.xhtml` (lines 436-443). -/
def navManifestEntry : ManifestEntry :=
  { href := "nav.xhtml", id := "nav", mediaType := some xhtmlType,
    properties := some "nav" }

/-- The manifest row synthesized for `toc.ncx` (lines 454-460). -/
def ncxManifestEntry : ManifestEntry :=
  { href := "toc.ncx", id := "ncx", mediaType := some ncxMediaType,
    properties := none }

/-- The accumulated `manifest_entries` list at serialization time: one
row per processed roster entry, plus a synthesized nav row when
`has_nav` stayed false, plus a synthesized NCX row when `has_ncx`
stayed false. -/
def buildManifest (entries : List ProcessedEntry) : List ManifestEntry :=
  let base := entries.map manifestEntryFor
  let withNav := if hasNavFlag entries then base else base ++ [navManifestEntry]
  if hasNcxFlag entries then withNav else withNav ++ [ncxManifestEntry]

/-- The id column of the final OPF manifest: the accumulated rows plus
the separately-added cover item (literal id `coverimage`, lines
477-489) when a cover path is given. -/
def manifestIds (entries : List ProcessedEntry) (hasCover : Bool) : List String :=
  (buildManifest entries).map (fun m => m.id) ++
    (if hasCover then ["coverimage"] else [])

theorem manifest_properties_eq (e : ProcessedEntry) :
    (manifestEntryFor e).properties = some "nav" ↔
      (e.mediaType = some xhtmlType ∧ e.hasTocNav = true) := by
  simp only [manifestEntryFor]
  split_ifs with h1 h2 h3 <;> simp_all

/-- C3 (amended): the accumulated manifest contains exactly one row with
`properties = nav` whenever at most one processed XHTML entry contains
an `epub:type="toc"` element (in particular, when none does, a nav row
is synthesized); with two or more such entries the loop marks each of
them `nav`. -/
theorem manifest_nav_count (entries : List ProcessedEntry)
    (h : entries.countP
        (fun e => decide (e.mediaType = some xhtmlType) && e.hasTocNav) ≤ 1) :
    (buildManifest entries).countP
        (fun m => decide (m.properties = some "nav")) = 1 := by
  have hbase : (entries.map manifestEntryFor).countP
      (fun m => decide (m.properties = some "nav")) =
      entries.countP
        (fun e => decide (e.mediaType = some xhtmlType) && e.hasTocNav) := by
    rw [List.countP_map]
    apply List.countP_congr
    intro e _
    have := manifest_properties_eq e
    by_cases hx : e.mediaType = some xhtmlType <;>
      by_cases hn : e.hasTocNav = true <;>
        simp_all [Function.comp]
  unfold buildManifest
  cases hnav : hasNavFlag entries with
  | true =>
      have hpos : 0 < entries.countP
          (fun e => decide (e.mediaType = some xhtmlType) && e.hasTocNav) := by
        unfold hasNavFlag at hnav
        rw [List.any_eq_true] at hnav
        obtain ⟨e, he, hpe⟩ := hnav
        exact List.countP_pos.mpr ⟨e, he, hpe⟩
      cases hncx : hasNcxFlag entries <;>
        simp [List.countP_append, hbase, ncxManifestEntry] <;> omega
  | false =>
      have hzero : entries.countP
          (fun e => decide (e.mediaType = some xhtmlType) && e.hasTocNav) = 0 := by
        unfold hasNavFlag at hnav
        rw [List.any_eq_false] at hnav
        exact List.countP_eq_zero.mpr fun e he => hnav e he
      cases hncx : hasNcxFlag entries <;>
        simp [List.countP_append, hbase, hzero, navManifestEntry, ncxManifestEntry]

theorem manifest_nav_count_witness :
    ([ProcessedEntry.mk "a1.xhtml" (some xhtmlType) false false] : List ProcessedEntry).countP
        (fun e => decide (e.mediaType = some xhtmlType) && e.hasTocNav) ≤ 1 ∧
    (buildManifest [ProcessedEntry.mk "a1.xhtml" (some xhtmlType) false false]).countP
        (fun m => decide (m.properties = some "nav")) = 1 :=
  ⟨by decide,
    manifest_nav_count [ProcessedEntry.mk "a1.xhtml" (some xhtmlType) false false]
      (by decide)⟩

/-- C3 (counterexample): when two processed XHTML documents both contain
an `epub:type="toc"` element, the loop marks both rows `nav`, so the
manifest carries two `nav` rows — refuting "never can two or more
entries carry the nav property". -/
theorem manifest_nav_count_counterexample :
    (buildManifest
        [ProcessedEntry.mk "a1.xhtml" (some xhtmlType) false true,
          ProcessedEntry.mk "a2.xhtml" (some xhtmlType) true true]).countP
        (fun m => decide (m.properties = some "nav")) = 2 := by
  decide

/-- C9: a processed XHTML document containing both an `svg` element and
an `epub:type="toc"` element ends up with `properties = nav` only: the
nav detection overwrites the previously set `svg` property. -/
theorem manifest_nav_overwrites_svg (e : ProcessedEntry)
    (hx : e.mediaType = some xhtmlType) (hsvg : e.hasSvg = true)
    (hnav : e.hasTocNav = true) :
    (manifestEntryFor e).properties = some "nav" ∧
      (manifestEntryFor e).properties ≠ some "svg" := by
  simp [manifestEntryFor, hx, hnav]

theorem manifest_nav_overwrites_svg_witness :
    (manifestEntryFor
        (ProcessedEntry.mk "a1.xhtml" (some xhtmlType) true true)).properties =
        some "nav" ∧
      (manifestEntryFor
        (ProcessedEntry.mk "a1.xhtml" (some xhtmlType) true true)).properties ≠
        some "svg" :=
  manifest_nav_overwrites_svg
    (ProcessedEntry.mk "a1.xhtml" (some xhtmlType) true true) rfl rfl rfl

theorem manifestIds_eq (entries : List ProcessedEntry) (c : Bool) :
    manifestIds entries c =
      entries.map opfIdFor ++
        ((if hasNavFlag entries then [] else ["nav"]) ++
          ((if hasNcxFlag entries then [] else ["ncx"]) ++
            (if c then ["coverimage"] else []))) := by
  have hmm : (entries.map manifestEntryFor).map (fun m => m.id) =
      entries.map opfIdFor := by
    rw [List.map_map]
    rfl
  unfold manifestIds buildManifest
  cases hasNavFlag entries <;> cases hasNcxFlag entries <;> cases c <;>
    simp [hmm, navManifestEntry, ncxManifestEntry]

theorem base_ids_nodup (entries : List ProcessedEntry)
    (hdistinct : (entries.filter
        (fun e => !decide (e.mediaType = some ncxMediaType))).Pairwise
        (fun a b => sanitiseOpfId a.path ≠ sanitiseOpfId b.path))
    (hres : ∀ e ∈ entries, e.mediaType ≠ some ncxMediaType →
        sanitiseOpfId e.path ≠ "ncx")
    (hncx : entries.countP (fun e => decide (e.mediaType = some ncxMediaType)) ≤ 1) :
    (entries.map opfIdFor).Nodup := by
  induction entries with
  | nil => simp
  | cons e rest ih =>
      rw [List.map_cons, List.nodup_cons]
      by_cases he : e.mediaType = some ncxMediaType
      · have hrest0 : ∀ x ∈ rest, x.mediaType ≠ some ncxMediaType := by
          rw [List.countP_cons_of_pos _ _ (by simp [he])] at hncx
          have : rest.countP (fun x => decide (x.mediaType = some ncxMediaType)) = 0 := by
            omega
          intro x hx
          have := List.countP_eq_zero.mp this x hx
          simpa using this
        constructor
        · intro hmem
          rw [List.mem_map] at hmem
          obtain ⟨x, hx, hid⟩ := hmem
          have hxn := hrest0 x hx
          rw [opfIdFor, if_neg hxn] at hid
          rw [opfIdFor, if_pos he] at hid
          exact hres x (List.mem_cons_of_mem _ hx) hxn hid
        · apply ih
          · have : (e :: rest).filter
                (fun x => !decide (x.mediaType = some ncxMediaType)) =
                rest.filter (fun x => !decide (x.mediaType = some ncxMediaType)) := by
              rw [List.filter_cons_of_neg (by simp [he])]
            rwa [this] at hdistinct
          · intro x hx hxn
            exact hres x (List.mem_cons_of_mem _ hx) hxn
          · rw [List.countP_cons_of_pos _ _ (by simp [he])] at hncx
            omega
      · have hfe : (e :: rest).filter
            (fun x => !decide (x.mediaType = some ncxMediaType)) =
            e :: rest.filter (fun x => !decide (x.mediaType = some ncxMediaType)) := by
          rw [List.filter_cons_of_pos (by simp [he])]
        rw [hfe, List.pairwise_cons] at hdistinct
        constructor
        · intro hmem
          rw [List.mem_map] at hmem
          obtain ⟨x, hx, hid⟩ := hmem
          simp only [opfIdFor] at hid
          rw [if_neg he] at hid
          by_cases hxn : x.mediaType = some ncxMediaType
          · rw [if_pos hxn] at hid
            exact hres e (List.mem_cons_self _ _) he hid.symm
          · rw [if_neg hxn] at hid
            have hxf : x ∈ rest.filter
                (fun y => !decide (y.mediaType = some ncxMediaType)) :=
              List.mem_filter.mpr ⟨hx, by simp [hxn]⟩
            exact hdistinct.1 x hxf hid.symm
        · apply ih
          · exact hdistinct.2
          · intro x hx hxn
            exact hres x (List.mem_cons_of_mem _ hx) hxn
          · rw [List.countP_cons_of_neg _ _ (by simp [he])] at hncx
            exact hncx

/-- C8 (amended): the id fields of the final manifest are pairwise
distinct *provided* the sanitised path tokens of the non-NCX roster
entries are pairwise distinct, avoid the reserved literals `ncx`, `nav`
and `coverimage`, and at most one roster entry carries the NCX media
type; ids are the sanitised relative paths (`id_`-prefixed when the
token starts with a digit), except the literal `ncx` for NCX entries and
`coverimage` for the cover. -/
theorem manifest_ids_nodup (entries : List ProcessedEntry) (hasCover : Bool)
    (hdistinct : (entries.filter
        (fun e => !decide (e.mediaType = some ncxMediaType))).Pairwise
        (fun a b => sanitiseOpfId a.path ≠ sanitiseOpfId b.path))
    (hres : ∀ e ∈ entries, e.mediaType ≠ some ncxMediaType →
        sanitiseOpfId e.path ∉ (["ncx", "nav", "coverimage"] : List String))
    (hncx : entries.countP (fun e => decide (e.mediaType = some ncxMediaType)) ≤ 1) :
    (manifestIds entries hasCover).Nodup := by
  rw [manifestIds_eq]
  have hresNcx : ∀ e ∈ entries, e.mediaType ≠ some ncxMediaType →
      sanitiseOpfId e.path ≠ "ncx" := by
    intro e he hn
    have := hres e he hn
    simp at this
    exact this.1
  have hbase := base_ids_nodup entries hdistinct hresNcx hncx
  have hnav_notin : "nav" ∉ entries.map opfIdFor := by
    intro hmem
    rw [List.mem_map] at hmem
    obtain ⟨x, hx, hid⟩ := hmem
    by_cases hxn : x.mediaType = some ncxMediaType
    · rw [opfIdFor, if_pos hxn] at hid
      simp at hid
    · rw [opfIdFor, if_neg hxn] at hid
      have := hres x hx hxn
      simp at this
      exact this.2.1 hid
  have hcover_notin : "coverimage" ∉ entries.map opfIdFor := by
    intro hmem
    rw [List.mem_map] at hmem
    obtain ⟨x, hx, hid⟩ := hmem
    by_cases hxn : x.mediaType = some ncxMediaType
    · rw [opfIdFor, if_pos hxn] at hid
      simp at hid
    · rw [opfIdFor, if_neg hxn] at hid
      have := hres x hx hxn
      simp at this
      exact this.2.2 hid
  have hncx_notin : hasNcxFlag entries = false → "ncx" ∉ entries.map opfIdFor := by
    intro hflag hmem
    rw [List.mem_map] at hmem
    obtain ⟨x, hx, hid⟩ := hmem
    unfold hasNcxFlag at hflag
    rw [List.any_eq_false] at hflag
    have hxn : x.mediaType ≠ some ncxMediaType := by
      have := hflag x hx
      simpa using this
    rw [opfIdFor, if_neg hxn] at hid
    exact hresNcx x hx hxn hid
  rw [List.nodup_append]
  refine ⟨hbase, ?_, ?_⟩
  · cases hnv : hasNavFlag entries <;> cases hnc : hasNcxFlag entries <;>
      cases hasCover <;> simp
  · intro a ha hb
    cases hnv : hasNavFlag entries <;> cases hnc : hasNcxFlag entries <;>
      cases hasCover <;> rw [hnv, hnc] at hb <;> simp at hb <;>
      first
        | (rcases hb with rfl | rfl | rfl
           · exact hnav_notin ha
           · exact hncx_notin hnc ha
           · exact hcover_notin ha)
        | (rcases hb with rfl | rfl
           · exact hnav_notin ha
           · first
              | exact hncx_notin hnc ha
              | exact hcover_notin ha)
        | (rcases hb with rfl | rfl
           · exact hncx_notin hnc ha
           · exact hcover_notin ha)
        | (subst hb
           first
            | exact hnav_notin ha
            | exact hncx_notin hnc ha
            | exact hcover_notin ha)

theorem manifest_ids_nodup_witness :
    (manifestIds
        [ProcessedEntry.mk "page1.xhtml" (some xhtmlType) false false,
          ProcessedEntry.mk "css/style.css" (some "text/css") false false]
        true).Nodup :=
  manifest_ids_nodup
    [ProcessedEntry.mk "page1.xhtml" (some xhtmlType) false false,
      ProcessedEntry.mk "css/style.css" (some "text/css") false false]
    true (by decide) (by decide) (by decide)

/-- C8 (counterexample): two roster entries with the same relative path
(processed twice: the second pass finds the asset already on disk and
still appends a manifest row) receive the same derived id, so the final
manifest ids are not pairwise distinct. -/
theorem manifest_ids_counterexample :
    ¬ (manifestIds
        [ProcessedEntry.mk "page1.xhtml" (some xhtmlType) false false,
          ProcessedEntry.mk "page1.xhtml" (some xhtmlType) false false]
        false).Nodup := by
  decide

/-! ## The magazine CSS patch (`patch_magazine_css_re.sub(r"\1\2", …)`)

The regular expression
`(#article-body\s*\x7b[^\x7b\x7d]+?)overflow-x:\s*hidden;([^\x7b\x7d]+?\x7d)`
is specialised into a direct scanner: `re.sub` scans start positions
left to right; at a match the replacement `\1\2` keeps both groups and
deletes the `overflow-x:\s*hidden;` between them, and scanning resumes
after the match. -/

/-- Python's `\s` class. -/
def isPySpace (c : Char) : Bool :=
  c == ' ' || c == '\t' || c == '\n' || c == '\r' || c == '\x0b' || c == '\x0c'

/-- A brace, which the character class `[^\x7b\x7d]` refuses. -/
def isBrace (c : Char) : Bool :=
  c == '\x7b' || c == '\x7d'

/-- Consume an exact literal, returning the remainder on success. -/
def consumeLit : List Char → List Char → Option (List Char)
  | [], s => some s
  | _ :: _, [] => none
  | p :: ps, c :: cs => if p == c then consumeLit ps cs else none

/-- Consume `\s*` greedily, returning the consumed run and the rest
(no backtracking is needed: every continuation of the pattern starts
with a non-space character). -/
def consumeSpaces : List Char → List Char × List Char
  | [] => ([], [])
  | c :: cs =>
      if isPySpace c then
        let (a, r) := consumeSpaces cs
        (c :: a, r)
      else ([], c :: cs)

/-- The literal `#article-body`. -/
def litArticleBody : List Char := "#article-body".data

/-- Match `overflow-x:\s*hidden;`, returning the remainder. -/
def matchOverflow (s : List Char) : Option (List Char) :=
  match consumeLit "overflow-x:".data s with
  | none => none
  | some s1 =>
      let (_, s2) := consumeSpaces s1
      consumeLit "hidden;".data s2

/-- Match the tail `[^\x7b\x7d]+?\x7d` (group 2): a lazy run of at
least one non-brace character up to the first closing brace. -/
def group2Loop (acc : List Char) : List Char → Option (List Char × List Char)
  | [] => none
  | c :: cs =>
      if c == '\x7d' then some (acc.reverse ++ [c], cs)
      else if c == '\x7b' then none
      else group2Loop (c :: acc) cs

/-- Entry point for group 2: the `+?` demands at least one non-brace
character before the closing brace. -/
def matchGroup2 : List Char → Option (List Char × List Char)
  | [] => none
  | c :: cs => if isBrace c then none else group2Loop [c] cs

/-- After `#article-body\s*\x7b`: lazily extend the `[^\x7b\x7d]+?` run
one character at a time, trying `overflow-x:\s*hidden;` followed by
group 2 at each position (this is the regex engine's backtracking into
the lazy quantifier when the tail fails).  Returns the run, group 2 and
the remainder. -/
def innerScan (acc : List Char) : List Char → Option (List Char × List Char × List Char)
  | [] => none
  | c :: cs =>
      if isBrace c then none
      else
        match matchOverflow cs with
        | some afterOv =>
            match matchGroup2 afterOv with
            | some (g2, rest) => some (acc ++ [c], g2, rest)
            | none => innerScan (acc ++ [c]) cs
        | none => innerScan (acc ++ [c]) cs

/-- Try the whole pattern at the start of `s`; on success return the
replacement `\1\2` (group 1 ++ group 2) and the unconsumed rest. -/
def tryPatch (s : List Char) : Option (List Char × List Char) :=
  match consumeLit litArticleBody s with
  | none => none
  | some s1 =>
      let (sp, s2) := consumeSpaces s1
      match consumeLit ['\x7b'] s2 with
      | none => none
      | some s3 =>
          match innerScan [] s3 with
          | none => none
          | some (run, g2, rest) =>
              some (litArticleBody ++ sp ++ ['\x7b'] ++ run ++ g2, rest)

/-- The `re.sub` scan: try the pattern at every position left to right,
emitting replacements and resuming after each match.  Every step
consumes at least one input character, so `s.length` fuel never runs
out. -/
def patchCssAux : Nat → List Char → List Char
  | 0, s => s
  | _ + 1, [] => []
  | fuel + 1, c :: cs =>
      match tryPatch (c :: cs) with
      | some (repl, rest) => repl ++ patchCssAux fuel rest
      | none => c :: patchCssAux fuel cs

/-- `patch_magazine_css_re.sub(r"\1\2", text)`. -/
def patchMagazineCss (s : String) : String :=
  String.mk (patchCssAux s.data.length s.data)

/-- `s` begins with `#article-body\s*\x7b`, the opening of an
`#article-body` rule block. -/
def startsRuleBlock (s : List Char) : Bool :=
  match consumeLit litArticleBody s with
  | none => false
  | some s1 =>
      let (_, s2) := consumeSpaces s1
      match s2 with
      | [] => false
      | c :: _ => c == '\x7b'

/-- `s` contains an `#article-body` rule-block opening somewhere. -/
def hasRuleBlock : List Char → Bool
  | [] => false
  | c :: cs => startsRuleBlock (c :: cs) || hasRuleBlock cs

theorem tryPatch_eq_none_of_not_startsRuleBlock (s : List Char)
    (h : startsRuleBlock s = false) : tryPatch s = none := by
  unfold startsRuleBlock at h
  unfold tryPatch
  cases hc : consumeLit litArticleBody s with
  | none => rfl
  | some s1 =>
      rw [hc] at h
      simp only at h ⊢
      cases hsp : consumeSpaces s1 with
      | mk sp s2 =>
          rw [hsp] at h
          simp only at h ⊢
          cases s2 with
          | nil => rfl
          | cons c cs =>
              simp only at h
              have hne : c ≠ '\x7b' := by
                intro he
                rw [he] at h
                simp at h
              have hcne : ('\x7b' == c) = false :=
                beq_eq_false_iff_ne.mpr (Ne.symm hne)
              have hnone : consumeLit ['\x7b'] (c :: cs) = none := by
                unfold consumeLit
                rw [hcne]
                simp
              rw [hnone]

theorem patchCssAux_of_no_ruleBlock (s : List Char) (fuel : Nat)
    (h : hasRuleBlock s = false) : patchCssAux fuel s = s := by
  induction s generalizing fuel with
  | nil => cases fuel <;> rfl
  | cons c cs ih =>
      cases fuel with
      | zero => rfl
      | succ fuel =>
          unfold hasRuleBlock at h
          rw [Bool.or_eq_false_iff] at h
          unfold patchCssAux
          rw [tryPatch_eq_none_of_not_startsRuleBlock _ h.1]
          rw [ih fuel h.2]

/-- C5: the magazine CSS patch maps
`#article-body\x7bcolor:red;overflow-x: hidden;padding:0\x7d` to exactly
`#article-body\x7bcolor:red;padding:0\x7d` (brace structure intact),
and returns every CSS text containing no `#article-body` rule block
unchanged. -/
theorem patchMagazineCss_spec :
    patchMagazineCss "#article-body\x7bcolor:red;overflow-x: hidden;padding:0\x7d" =
      "#article-body\x7bcolor:red;padding:0\x7d" ∧
    ∀ s : String, hasRuleBlock s.data = false → patchMagazineCss s = s := by
  constructor
  · decide
  · intro s h
    unfold patchMagazineCss
    rw [patchCssAux_of_no_ruleBlock _ _ h]

theorem patchMagazineCss_spec_witness :
    hasRuleBlock "p \x7b overflow-x: hidden; margin:0 \x7d".data = false ∧
    patchMagazineCss "p \x7b overflow-x: hidden; margin:0 \x7d" =
      "p \x7b overflow-x: hidden; margin:0 \x7d" :=
  ⟨by decide, patchMagazineCss_spec.2 _ (by decide)⟩

/-! ## NCX synthesis (`_build_ncx`) -/

/-- A simplified `xml.etree.ElementTree` element: tag, attributes in
insertion order, text, children. -/
structure XElem where
  tag : String
  attrs : List (String × String)
  text : Option String
  children : List XElem

/-- A TOC item `{title, path}` of `openbook["nav"]["toc"]`. -/
structure TocItem where
  title : String
  path : String

/-- The openbook fields read by `_build_ncx`. -/
structure OpenBook where
  titleMain : String
  creator : List String
  toc : List TocItem

/-- The media-info fields read by `_build_ncx`: the declared formats
(opaque here, consumed only by the external `extract_isbn`) and the
catalog media id. -/
structure MediaInfo (φ : Type) where
  formats : φ
  id : String

/-- Python's `x or y` for an optional string `x`: `None` and `""` are
falsy and fall back to `y`. -/
def pyOrStr (x : Option String) (y : String) : String :=
  match x with
  | some s => if s = "" then y else s
  | none => y

/-- One `navPoint{i}` element built from a TOC item (lines 117-122). -/
def ncxNavPoint (i : Nat) (item : TocItem) : XElem :=
  { tag := "navPoint"
    attrs := [("id", "navPoint" ++ toString i)]
    text := none
    children :=
      [{ tag := "navLabel", attrs := [], text := none,
         children := [{ tag := "text", attrs := [], text := some item.title,
                        children := [] }] },
       { tag := "content", attrs := [("src", item.path)], text := none,
         children := [] }] }

/-- `_build_ncx(media_info, openbook)` (lines 72-123).  Modelled from
the spec: `extract_isbn` (defined in `odmpy/processing/shared.py`,
which is not among the sources under verification) searches the
declared ebook/magazine format identifiers for an ISBN; it is kept
abstract as a function from the formats to an optional ISBN string.
The publication identifier is the extracted ISBN or, when falsy, the
catalog media id; it becomes the `content` of the
`head/meta[name=dtb:uid]` element.  Returns `none` when the openbook
declares no creators (the Python code would raise an `IndexError` on
`openbook["creator"][0]`). -/
def ncxTree {φ : Type} (extractIsbn : φ → Option String)
    (mediaInfo : MediaInfo φ) (openbook : OpenBook) (creator0 : String) : XElem :=
  let publicationIdentifier :=
    pyOrStr (extractIsbn mediaInfo.formats) mediaInfo.id
  { tag := "ncx"
    attrs := [("version", "2005-1"),
              ("xmlns", "http://www.daisy.org/z3986/2005/ncx/"),
              ("xml:lang", "en")]
    text := none
    children :=
      [{ tag := "head", attrs := [], text := none,
         children := [{ tag := "meta",
                        attrs := [("content", publicationIdentifier),
                                  ("name", "dtb:uid")],
                        text := none, children := [] }] },
       { tag := "docTitle", attrs := [], text := none,
         children := [{ tag := "text", attrs := [],
                        text := some openbook.titleMain, children := [] }] },
       { tag := "docAuthor", attrs := [], text := none,
         children := [{ tag := "text", attrs := [],
                        text := some creator0, children := [] }] },
       { tag := "navMap", attrs := [], text := none,
         children := (List.enumFrom 1 openbook.toc).map
           fun p => ncxNavPoint p.1 p.2 }] }

def buildNcx {φ : Type} (extractIsbn : φ → Option String)
    (mediaInfo : MediaInfo φ) (openbook : OpenBook) : Option XElem :=
  match openbook.creator with
  | [] => none
  | creator0 :: _ => some (ncxTree extractIsbn mediaInfo openbook creator0)

/-- The `content` attribute of the `head/meta[name=dtb:uid]` element of
an NCX tree. -/
def ncxDtbUid (ncx : XElem) : Option String :=
  match ncx.children.find? (fun c => c.tag == "head") with
  | none => none
  | some head =>
      match head.children.find? (fun c =>
          c.tag == "meta" && (c.attrs.lookup "name" == some "dtb:uid")) with
      | none => none
      | some m => m.attrs.lookup "content"

/-- C6: the `dtb:uid` written into the synthesized NCX equals the ISBN
extracted from the declared ebook/magazine format identifiers when a
(nonempty) one exists, and otherwise equals the catalog media id. -/
theorem buildNcx_dtb_uid {φ : Type} (extractIsbn : φ → Option String)
    (mediaInfo : MediaInfo φ) (openbook : OpenBook)
    (hc : openbook.creator ≠ []) :
    ∃ ncx, buildNcx extractIsbn mediaInfo openbook = some ncx ∧
      ncxDtbUid ncx = some (pyOrStr (extractIsbn mediaInfo.formats) mediaInfo.id) ∧
      (∀ isbn, extractIsbn mediaInfo.formats = some isbn → isbn ≠ "" →
        pyOrStr (extractIsbn mediaInfo.formats) mediaInfo.id = isbn) ∧
      (extractIsbn mediaInfo.formats = none →
        pyOrStr (extractIsbn mediaInfo.formats) mediaInfo.id = mediaInfo.id) := by
  cases hcr : openbook.creator with
  | nil => exact absurd hcr hc
  | cons c0 rest =>
      refine ⟨ncxTree extractIsbn mediaInfo openbook c0, ?_, ?_, ?_, ?_⟩
      · unfold buildNcx
        rw [hcr]
      · rfl
      · intro isbn hi hne
        rw [hi]
        unfold pyOrStr
        simp [hne]
      · intro h
        rw [h]
        rfl

theorem buildNcx_dtb_uid_witness :
    ∃ ncx,
      buildNcx (fun _ : Unit => some "9781234567897")
          (MediaInfo.mk () "media-id") (OpenBook.mk "Title" ["Author"] []) =
        some ncx ∧
      ncxDtbUid ncx =
        some (pyOrStr ((fun _ : Unit => some "9781234567897") ()) "media-id") ∧
      (∀ isbn, (fun _ : Unit => some "9781234567897") () = some isbn → isbn ≠ "" →
        pyOrStr ((fun _ : Unit => some "9781234567897") ()) "media-id" = isbn) ∧
      ((fun _ : Unit => some "9781234567897") () = none →
        pyOrStr ((fun _ : Unit => some "9781234567897") ()) "media-id" = "media-id") :=
  buildNcx_dtb_uid (fun _ : Unit => some "9781234567897")
    (MediaInfo.mk () "media-id") (OpenBook.mk "Title" ["Author"] [])
    (by simp)

/-! ## Structural XHTML cleanup (`_cleanup_soup`)

A parsed document as manipulated through BeautifulSoup: a list of
top-level nodes (`soup.contents`), where a node is a doctype
declaration, a text node, or an element with tag, insertion-ordered
attributes and children.  The forest is a dedicated mutual inductive so
that every traversal is plain structural recursion. -/

mutual
inductive HNode : Type
  | doctype (s : String)
  | text (s : String)
  | elem (tag : String) (attrs : List (String × String)) (children : HForest)
inductive HForest : Type
  | nil
  | cons (head : HNode) (tail : HForest)
end

/-- `tag.get(k)`: the value of attribute `k`, `None` when missing. -/
def getAttr : List (String × String) → String → Option String
  | [], _ => none
  | kv :: rest, k => if kv.1 == k then some kv.2 else getAttr rest k

/-- `tag[k] = v`: overwrite the key in place, else append. -/
def setAttr : List (String × String) → String → String → List (String × String)
  | [], k, v => [(k, v)]
  | kv :: rest, k, v =>
      if kv.1 == k then (k, v) :: rest else kv :: setAttr rest k v

/-- `if not tag.get(k): tag[k] = v` — the presence-guarded namespace
defaulting used for `svg` and `html` elements (Python truthiness, so a
missing key or an empty value triggers the set). -/
def ensureAttr (attrs : List (String × String)) (k v : String) :
    List (String × String) :=
  if strTruthy (getAttr attrs k) then attrs else setAttr attrs k v

/-- The replacement DOCTYPE used for version 2.0 (line 148). -/
def xhtml11Doctype : String :=
  "html PUBLIC \"-//W3C//DTD XHTML 1.1//EN\" \"http://www.w3.org/TR/xhtml11/DTD/xhtml11.dtd\""

/-- Replace the first top-level `Doctype` node (lines 149-152). -/
def fixDoctype (v : String) : HForest → HForest
  | .nil => .nil
  | .cons (.doctype _) rest => .cons (.doctype v) rest
  | .cons n rest => .cons n (fixDoctype v rest)

mutual
/-- `del tag[a]` applied to every element (one pass of the
attribute-removal loop, lines 165-167). -/
def removeAttrNode (a : String) : HNode → HNode
  | .doctype s => .doctype s
  | .text s => .text s
  | .elem tag attrs cs =>
      .elem tag (attrs.filter fun kv => !(kv.1 == a)) (removeAttrForest a cs)
def removeAttrForest (a : String) : HForest → HForest
  | .nil => .nil
  | .cons n ns => .cons (removeAttrNode a n) (removeAttrForest a ns)
end

/-- The attribute list removed for version 2.0 (lines 153-164). -/
def removeAttributesList : List String :=
  ["aria-label", "data-loc", "data-epub-type", "data-document-status",
   "data-xml-lang", "lang", "role", "epub:type", "epub:prefix"]

/-- The attribute-removal loop (lines 165-167). -/
def removeAllAttributes (doc : HForest) : HForest :=
  removeAttributesList.foldl (fun d a => removeAttrForest a d) doc

mutual
/-- `invalid_tag.name = "div"` applied to every element with tag `t`
(one pass of a tag-conversion loop, lines 168-171 / 179-182). -/
def renameTagNode (t u : String) : HNode → HNode
  | .doctype s => .doctype s
  | .text s => .text s
  | .elem tag attrs cs =>
      .elem (if tag == t then u else tag) attrs (renameTagForest t u cs)
def renameTagForest (t u : String) : HForest → HForest
  | .nil => .nil
  | .cons n ns => .cons (renameTagNode t u n) (renameTagForest t u ns)
end

/-- The attributes ensured on every `svg` element (lines 174-178). -/
def svgAttrs (attrs : List (String × String)) : List (String × String) :=
  ensureAttr (ensureAttr attrs "xmlns" "http://www.w3.org/2000/svg")
    "xmlns:xlink" "http://www.w3.org/1999/xlink"

mutual
/-- The svg namespace-defaulting loop (lines 174-178). -/
def svgNsNode : HNode → HNode
  | .doctype s => .doctype s
  | .text s => .text s
  | .elem tag attrs cs =>
      .elem tag (if tag == "svg" then svgAttrs attrs else attrs) (svgNsForest cs)
def svgNsForest : HForest → HForest
  | .nil => .nil
  | .cons n ns => .cons (svgNsNode n) (svgNsForest ns)
end

/-- `remove_tag.decompose()` for every element with tag `t` (the whole
subtree vanishes; lines 183-186). -/
def removeTagForest (t : String) : HForest → HForest
  | .nil => .nil
  | .cons (.elem tag attrs cs) ns =>
      if tag == t then removeTagForest t ns
      else .cons (.elem tag attrs (removeTagForest t cs)) (removeTagForest t ns)
  | .cons n ns => .cons n (removeTagForest t ns)

mutual
/-- `soup.find("html")` followed by the guarded namespace set (lines
188-190): depth-first search for the first `html` element; on it,
ensure `xmlns`; the returned flag reports whether it was found (the
search does not descend into the found element, and nothing after it is
touched). -/
def fixHtmlNode : HNode → HNode × Bool
  | .doctype s => (.doctype s, false)
  | .text s => (.text s, false)
  | .elem tag attrs cs =>
      if tag == "html" then
        (.elem tag (ensureAttr attrs "xmlns" "http://www.w3.org/1999/xhtml") cs, true)
      else
        let r := fixHtmlForest cs
        (.elem tag attrs r.1, r.2)
def fixHtmlForest : HForest → HForest × Bool
  | .nil => (.nil, false)
  | .cons n ns =>
      let r := fixHtmlNode n
      if r.2 then (.cons r.1 ns, true)
      else
        let rs := fixHtmlForest ns
        (.cons r.1 rs.1, rs.2)
end

/-- The html-root namespace fixup applied to the document. -/
def fixHtmlDoc (doc : HForest) : HForest :=
  (fixHtmlForest doc).1

/-- The version-2.0-only cleanup steps (lines 146-171): replace the
DOCTYPE, strip the fixed attribute list, and rename `nav` then
`section` elements to `div`. -/
def v2Cleanup (doc : HForest) : HForest :=
  renameTagForest "section" "div"
    (renameTagForest "nav" "div"
      (removeAllAttributes (fixDoctype xhtml11Doctype doc)))

/-- The version-independent cleanup steps (lines 173-190): default the
svg namespaces, rename `figcaption` to `div`, remove `base` elements,
and default the root `html` element's `xmlns`. -/
def commonCleanup (d : HForest) : HForest :=
  fixHtmlDoc
    (removeTagForest "base" (renameTagForest "figcaption" "div" (svgNsForest d)))

/-- `_cleanup_soup(soup, version)` (lines 138-191). -/
def cleanupSoup (version : String) (doc : HForest) : HForest :=
  commonCleanup (if version = "2.0" then v2Cleanup doc else doc)

/-! ### Invariants established by the cleanup pass -/

mutual
def noTagNode (t : String) : HNode → Prop
  | .elem tag _ cs => ¬(tag = t) ∧ noTagForest t cs
  | _ => True
def noTagForest (t : String) : HForest → Prop
  | .nil => True
  | .cons n ns => noTagNode t n ∧ noTagForest t ns
end

mutual
def noAttrNode (a : String) : HNode → Prop
  | .elem _ attrs cs => (∀ kv ∈ attrs, ¬(kv.1 = a)) ∧ noAttrForest a cs
  | _ => True
def noAttrForest (a : String) : HForest → Prop
  | .nil => True
  | .cons n ns => noAttrNode a n ∧ noAttrForest a ns
end

mutual
def svgOkNode : HNode → Prop
  | .elem tag attrs cs =>
      (tag = "svg" → strTruthy (getAttr attrs "xmlns") = true ∧
        strTruthy (getAttr attrs "xmlns:xlink") = true) ∧ svgOkForest cs
  | _ => True
def svgOkForest : HForest → Prop
  | .nil => True
  | .cons n ns => svgOkNode n ∧ svgOkForest ns
end

/-- The first top-level doctype node, if any, carries the value `v`. -/
def docHeadOk (v : String) : HForest → Prop
  | .nil => True
  | .cons (.doctype s) _ => s = v
  | .cons _ rest => docHeadOk v rest

theorem getAttr_setAttr_same (attrs : List (String × String)) (k v : String) :
    getAttr (setAttr attrs k v) k = some v := by
  induction attrs with
  | nil => simp [setAttr, getAttr]
  | cons kv rest ih =>
      by_cases h : (kv.1 == k) = true
      · simp [setAttr, h, getAttr]
      · simp only [setAttr, h, Bool.false_eq_true, if_false]
        simp [getAttr, h, ih]

theorem getAttr_setAttr_ne (attrs : List (String × String)) (k v k2 : String)
    (h : k2 ≠ k) : getAttr (setAttr attrs k v) k2 = getAttr attrs k2 := by
  have hkk2 : (k == k2) = false := beq_eq_false_iff_ne.mpr (Ne.symm h)
  induction attrs with
  | nil => simp [setAttr, getAttr, hkk2]
  | cons kv rest ih =>
      by_cases hk : (kv.1 == k) = true
      · have hkv : kv.1 = k := beq_iff_eq.mp hk
        have hkv2 : (kv.1 == k2) = false := by
          rw [hkv]
          exact hkk2
        simp [setAttr, hk, getAttr, hkk2, hkv2]
      · by_cases hk2 : (kv.1 == k2) = true
        · simp [setAttr, hk, getAttr, hk2]
        · simp [setAttr, hk, getAttr, hk2, ih]

theorem ensureAttr_of_truthy (attrs : List (String × String)) (k v : String)
    (h : strTruthy (getAttr attrs k) = true) : ensureAttr attrs k v = attrs := by
  simp [ensureAttr, h]

theorem ensureAttr_truthy (attrs : List (String × String)) (k v : String)
    (hv : v ≠ "") : strTruthy (getAttr (ensureAttr attrs k v) k) = true := by
  unfold ensureAttr
  by_cases h : strTruthy (getAttr attrs k) = true
  · simp [h]
  · simp only [h, Bool.false_eq_true, if_false]  -- hmm handle via if_neg
    rw [getAttr_setAttr_same]
    simp [strTruthy, hv]

theorem ensureAttr_getAttr_ne (attrs : List (String × String)) (k v k2 : String)
    (h : k2 ≠ k) : getAttr (ensureAttr attrs k v) k2 = getAttr attrs k2 := by
  unfold ensureAttr
  by_cases ht : strTruthy (getAttr attrs k) = true
  · simp [ht]
  · simp only [ht, Bool.false_eq_true, if_false]
    exact getAttr_setAttr_ne attrs k v k2 h

theorem svgAttrs_xmlns (attrs : List (String × String)) :
    strTruthy (getAttr (svgAttrs attrs) "xmlns") = true := by
  unfold svgAttrs
  rw [ensureAttr_getAttr_ne _ _ _ _ (by decide)]
  exact ensureAttr_truthy _ _ _ (by decide)

theorem svgAttrs_xlink (attrs : List (String × String)) :
    strTruthy (getAttr (svgAttrs attrs) "xmlns:xlink") = true := by
  unfold svgAttrs
  exact ensureAttr_truthy _ _ _ (by decide)

theorem svgAttrs_of_ok (attrs : List (String × String))
    (h1 : strTruthy (getAttr attrs "xmlns") = true)
    (h2 : strTruthy (getAttr attrs "xmlns:xlink") = true) :
    svgAttrs attrs = attrs := by
  unfold svgAttrs
  rw [ensureAttr_of_truthy _ _ _ h1, ensureAttr_of_truthy _ _ _ h2]

theorem setAttr_mem (attrs : List (String × String)) (k v : String) :
    ∀ kv ∈ setAttr attrs k v, kv.1 = k ∨ kv ∈ attrs := by
  induction attrs with
  | nil =>
      intro kv hkv
      simp [setAttr] at hkv
      left
      rw [hkv]
  | cons hd rest ih =>
      intro kv hkv
      by_cases h : (hd.1 == k) = true
      · simp only [setAttr, h, if_true] at hkv
        rcases List.mem_cons.mp hkv with h1 | h1
        · left
          rw [h1]
        · right
          exact List.mem_cons_of_mem _ h1
      · simp only [setAttr, h, Bool.false_eq_true, if_false] at hkv
        rcases List.mem_cons.mp hkv with h1 | h1
        · right
          rw [h1]
          exact List.mem_cons_self _ _
        · rcases ih kv h1 with h2 | h2
          · exact Or.inl h2
          · exact Or.inr (List.mem_cons_of_mem _ h2)

theorem ensureAttr_keys (attrs : List (String × String)) (k v a : String)
    (hka : k ≠ a) (h : ∀ kv ∈ attrs, ¬(kv.1 = a)) :
    ∀ kv ∈ ensureAttr attrs k v, ¬(kv.1 = a) := by
  unfold ensureAttr
  by_cases ht : strTruthy (getAttr attrs k) = true
  · simp only [ht, if_true]
    exact h
  · simp only [ht, Bool.false_eq_true, if_false]
    intro kv hkv
    rcases setAttr_mem attrs k v kv hkv with h1 | h1
    · rw [h1]
      exact hka
    · exact h kv h1

theorem svgAttrs_keys (attrs : List (String × String)) (a : String)
    (h1 : a ≠ "xmlns") (h2 : a ≠ "xmlns:xlink")
    (h : ∀ kv ∈ attrs, ¬(kv.1 = a)) :
    ∀ kv ∈ svgAttrs attrs, ¬(kv.1 = a) := by
  unfold svgAttrs
  exact ensureAttr_keys _ _ _ _ (Ne.symm h2)
    (ensureAttr_keys _ _ _ _ (Ne.symm h1) h)

/-! ### Tag-renaming lemmas -/

mutual
theorem renameTagNode_noTag (t u : String) (h : ¬(u = t)) :
    ∀ n : HNode, noTagNode t (renameTagNode t u n)
  | .doctype s => by simp [renameTagNode, noTagNode]
  | .text s => by simp [renameTagNode, noTagNode]
  | .elem tag attrs cs => by
      simp only [renameTagNode, noTagNode]
      refine ⟨?_, renameTagForest_noTag t u h cs⟩
      by_cases htag : tag = t
      · simp [htag, h]
      · simp [htag]
theorem renameTagForest_noTag (t u : String) (h : ¬(u = t)) :
    ∀ ns : HForest, noTagForest t (renameTagForest t u ns)
  | .nil => by simp [renameTagForest, noTagForest]
  | .cons n ns => by
      simp only [renameTagForest, noTagForest]
      exact ⟨renameTagNode_noTag t u h n, renameTagForest_noTag t u h ns⟩
end

mutual
theorem renameTagNode_id (t u : String) :
    ∀ n : HNode, noTagNode t n → renameTagNode t u n = n
  | .doctype _, _ => rfl
  | .text _, _ => rfl
  | .elem tag attrs cs, h => by
      have h1 : ¬(tag = t) := h.1
      simp only [renameTagNode]
      rw [renameTagForest_id t u cs h.2]
      simp [h1]
theorem renameTagForest_id (t u : String) :
    ∀ ns : HForest, noTagForest t ns → renameTagForest t u ns = ns
  | .nil, _ => rfl
  | .cons n ns, h => by
      simp only [renameTagForest]
      rw [renameTagNode_id t u n h.1, renameTagForest_id t u ns h.2]
end

mutual
theorem renameTagNode_pres_noTag (t u s : String) (hsu : ¬(s = u)) :
    ∀ n : HNode, noTagNode s n → noTagNode s (renameTagNode t u n)
  | .doctype _, h => h
  | .text _, h => h
  | .elem tag attrs cs, h => by
      simp only [renameTagNode, noTagNode]
      refine ⟨?_, renameTagForest_pres_noTag t u s hsu cs h.2⟩
      by_cases htag : tag = t
      · simp [htag]
        exact fun he => hsu he.symm
      · simp [htag]
        exact h.1
theorem renameTagForest_pres_noTag (t u s : String) (hsu : ¬(s = u)) :
    ∀ ns : HForest, noTagForest s ns → noTagForest s (renameTagForest t u ns)
  | .nil, h => h
  | .cons n ns, h =>
      ⟨renameTagNode_pres_noTag t u s hsu n h.1,
        renameTagForest_pres_noTag t u s hsu ns h.2⟩
end

mutual
theorem renameTagNode_pres_noAttr (t u a : String) :
    ∀ n : HNode, noAttrNode a n → noAttrNode a (renameTagNode t u n)
  | .doctype _, h => h
  | .text _, h => h
  | .elem tag attrs cs, h =>
      ⟨h.1, renameTagForest_pres_noAttr t u a cs h.2⟩
theorem renameTagForest_pres_noAttr (t u a : String) :
    ∀ ns : HForest, noAttrForest a ns → noAttrForest a (renameTagForest t u ns)
  | .nil, h => h
  | .cons n ns, h =>
      ⟨renameTagNode_pres_noAttr t u a n h.1,
        renameTagForest_pres_noAttr t u a ns h.2⟩
end

mutual
theorem renameTagNode_pres_svgOk (t u : String) (ht : ¬(t = "svg"))
    (hu : ¬(u = "svg")) :
    ∀ n : HNode, svgOkNode n → svgOkNode (renameTagNode t u n)
  | .doctype _, h => h
  | .text _, h => h
  | .elem tag attrs cs, h => by
      simp only [renameTagNode, svgOkNode]
      refine ⟨?_, renameTagForest_pres_svgOk t u ht hu cs h.2⟩
      by_cases htag : tag = t
      · simp [htag]
        exact fun he => absurd he hu
      · simp [htag]
        exact h.1
theorem renameTagForest_pres_svgOk (t u : String) (ht : ¬(t = "svg"))
    (hu : ¬(u = "svg")) :
    ∀ ns : HForest, svgOkForest ns → svgOkForest (renameTagForest t u ns)
  | .nil, h => h
  | .cons n ns, h =>
      ⟨renameTagNode_pres_svgOk t u ht hu n h.1,
        renameTagForest_pres_svgOk t u ht hu ns h.2⟩
end

theorem renameTagForest_pres_docHead (t u v : String) :
    ∀ ns : HForest, docHeadOk v ns → docHeadOk v (renameTagForest t u ns)
  | .nil, h => h
  | .cons (.doctype s) ns, h => h
  | .cons (.text s) ns, h => renameTagForest_pres_docHead t u v ns h
  | .cons (.elem tag attrs cs) ns, h =>
      renameTagForest_pres_docHead t u v ns h

/-! ### Attribute-removal lemmas -/

mutual
theorem removeAttrNode_noAttr (a : String) :
    ∀ n : HNode, noAttrNode a (removeAttrNode a n)
  | .doctype s => by simp [removeAttrNode, noAttrNode]
  | .text s => by simp [removeAttrNode, noAttrNode]
  | .elem tag attrs cs => by
      simp only [removeAttrNode, noAttrNode]
      refine ⟨?_, removeAttrForest_noAttr a cs⟩
      intro kv hkv
      have := (List.mem_filter.mp hkv).2
      simp at this
      exact this
theorem removeAttrForest_noAttr (a : String) :
    ∀ ns : HForest, noAttrForest a (removeAttrForest a ns)
  | .nil => by simp [removeAttrForest, noAttrForest]
  | .cons n ns =>
      ⟨removeAttrNode_noAttr a n, removeAttrForest_noAttr a ns⟩
end

mutual
theorem removeAttrNode_id (a : String) :
    ∀ n : HNode, noAttrNode a n → removeAttrNode a n = n
  | .doctype _, _ => rfl
  | .text _, _ => rfl
  | .elem tag attrs cs, h => by
      simp only [removeAttrNode]
      rw [removeAttrForest_id a cs h.2]
      rw [List.filter_eq_self.mpr]
      intro kv hkv
      simpa using h.1 kv hkv
theorem removeAttrForest_id (a : String) :
    ∀ ns : HForest, noAttrForest a ns → removeAttrForest a ns = ns
  | .nil, _ => rfl
  | .cons n ns, h => by
      simp only [removeAttrForest]
      rw [removeAttrNode_id a n h.1, removeAttrForest_id a ns h.2]
end

mutual
theorem removeAttrNode_pres_noAttr (b a : String) :
    ∀ n : HNode, noAttrNode a n → noAttrNode a (removeAttrNode b n)
  | .doctype _, h => h
  | .text _, h => h
  | .elem tag attrs cs, h => by
      simp only [removeAttrNode, noAttrNode]
      refine ⟨?_, removeAttrForest_pres_noAttr b a cs h.2⟩
      intro kv hkv
      exact h.1 kv (List.mem_filter.mp hkv).1
theorem removeAttrForest_pres_noAttr (b a : String) :
    ∀ ns : HForest, noAttrForest a ns → noAttrForest a (removeAttrForest b ns)
  | .nil, h => h
  | .cons n ns, h =>
      ⟨removeAttrNode_pres_noAttr b a n h.1,
        removeAttrForest_pres_noAttr b a ns h.2⟩
end

theorem removeAttrForest_pres_docHead (b v : String) :
    ∀ ns : HForest, docHeadOk v ns → docHeadOk v (removeAttrForest b ns)
  | .nil, h => h
  | .cons (.doctype s) ns, h => h
  | .cons (.text s) ns, h => removeAttrForest_pres_docHead b v ns h
  | .cons (.elem tag attrs cs) ns, h =>
      removeAttrForest_pres_docHead b v ns h

/-! ### Lemmas about the attribute-removal fold -/

theorem foldAttr_pres_noAttr (a : String) (as : List String) :
    ∀ d : HForest, noAttrForest a d →
      noAttrForest a (as.foldl (fun d x => removeAttrForest x d) d) := by
  induction as with
  | nil => intro d h; exact h
  | cons b bs ih =>
      intro d h
      simp only [List.foldl_cons]
      exact ih _ (removeAttrForest_pres_noAttr b a d h)

theorem foldAttr_noAttr (as : List String) (a : String) (ha : a ∈ as) :
    ∀ d : HForest, noAttrForest a (as.foldl (fun d x => removeAttrForest x d) d) := by
  induction as with
  | nil => cases ha
  | cons b bs ih =>
      intro d
      simp only [List.foldl_cons]
      rcases List.mem_cons.mp ha with rfl | ha2
      · exact foldAttr_pres_noAttr a bs _ (removeAttrForest_noAttr a d)
      · exact ih ha2 _

theorem foldAttr_id (as : List String) :
    ∀ d : HForest, (∀ a ∈ as, noAttrForest a d) →
      as.foldl (fun d x => removeAttrForest x d) d = d := by
  induction as with
  | nil => intro d _; rfl
  | cons b bs ih =>
      intro d h
      simp only [List.foldl_cons]
      rw [removeAttrForest_id b d (h b (List.mem_cons_self _ _))]
      exact ih d fun a ha => h a (List.mem_cons_of_mem _ ha)

theorem foldAttr_pres_docHead (v : String) (as : List String) :
    ∀ d : HForest, docHeadOk v d →
      docHeadOk v (as.foldl (fun d x => removeAttrForest x d) d) := by
  induction as with
  | nil => intro d h; exact h
  | cons b bs ih =>
      intro d h
      simp only [List.foldl_cons]
      exact ih _ (removeAttrForest_pres_docHead b v d h)

/-! ### Svg namespace-defaulting lemmas -/

mutual
theorem svgNsNode_svgOk : ∀ n : HNode, svgOkNode (svgNsNode n)
  | .doctype s => by simp [svgNsNode, svgOkNode]
  | .text s => by simp [svgNsNode, svgOkNode]
  | .elem tag attrs cs => by
      simp only [svgNsNode, svgOkNode]
      refine ⟨?_, svgNsForest_svgOk cs⟩
      intro he
      rw [if_pos (beq_iff_eq.mpr he)]
      exact ⟨svgAttrs_xmlns attrs, svgAttrs_xlink attrs⟩
theorem svgNsForest_svgOk : ∀ ns : HForest, svgOkForest (svgNsForest ns)
  | .nil => by simp [svgNsForest, svgOkForest]
  | .cons n ns => ⟨svgNsNode_svgOk n, svgNsForest_svgOk ns⟩
end

mutual
theorem svgNsNode_id : ∀ n : HNode, svgOkNode n → svgNsNode n = n
  | .doctype _, _ => rfl
  | .text _, _ => rfl
  | .elem tag attrs cs, h => by
      simp only [svgNsNode]
      rw [svgNsForest_id cs h.2]
      by_cases htag : tag = "svg"
      · rw [if_pos (beq_iff_eq.mpr htag)]
        obtain ⟨h1, h2⟩ := h.1 htag
        rw [svgAttrs_of_ok attrs h1 h2]
      · rw [if_neg]
        simp [htag]
theorem svgNsForest_id : ∀ ns : HForest, svgOkForest ns → svgNsForest ns = ns
  | .nil, _ => rfl
  | .cons n ns, h => by
      simp only [svgNsForest]
      rw [svgNsNode_id n h.1, svgNsForest_id ns h.2]
end

mutual
theorem svgNsNode_pres_noTag (s : String) :
    ∀ n : HNode, noTagNode s n → noTagNode s (svgNsNode n)
  | .doctype _, h => h
  | .text _, h => h
  | .elem tag attrs cs, h => ⟨h.1, svgNsForest_pres_noTag s cs h.2⟩
theorem svgNsForest_pres_noTag (s : String) :
    ∀ ns : HForest, noTagForest s ns → noTagForest s (svgNsForest ns)
  | .nil, h => h
  | .cons n ns, h =>
      ⟨svgNsNode_pres_noTag s n h.1, svgNsForest_pres_noTag s ns h.2⟩
end

mutual
theorem svgNsNode_pres_noAttr (a : String) (h1 : a ≠ "xmlns")
    (h2 : a ≠ "xmlns:xlink") :
    ∀ n : HNode, noAttrNode a n → noAttrNode a (svgNsNode n)
  | .doctype _, h => h
  | .text _, h => h
  | .elem tag attrs cs, h => by
      simp only [svgNsNode, noAttrNode]
      refine ⟨?_, svgNsForest_pres_noAttr a h1 h2 cs h.2⟩
      by_cases htag : (tag == "svg") = true
      · rw [if_pos htag]
        exact svgAttrs_keys attrs a h1 h2 h.1
      · rw [if_neg htag]
        exact h.1
theorem svgNsForest_pres_noAttr (a : String) (h1 : a ≠ "xmlns")
    (h2 : a ≠ "xmlns:xlink") :
    ∀ ns : HForest, noAttrForest a ns → noAttrForest a (svgNsForest ns)
  | .nil, h => h
  | .cons n ns, h =>
      ⟨svgNsNode_pres_noAttr a h1 h2 n h.1,
        svgNsForest_pres_noAttr a h1 h2 ns h.2⟩
end

theorem svgNsForest_pres_docHead (v : String) :
    ∀ ns : HForest, docHeadOk v ns → docHeadOk v (svgNsForest ns)
  | .nil, h => h
  | .cons (.doctype s) ns, h => h
  | .cons (.text s) ns, h => svgNsForest_pres_docHead v ns h
  | .cons (.elem tag attrs cs) ns, h => svgNsForest_pres_docHead v ns h

/-! ### Tag-removal (`decompose`) lemmas -/

theorem removeTagForest_noTag (t : String) :
    ∀ ns : HForest, noTagForest t (removeTagForest t ns)
  | .nil => by simp [removeTagForest, noTagForest]
  | .cons (.doctype s) ns => ⟨trivial, removeTagForest_noTag t ns⟩
  | .cons (.text s) ns => ⟨trivial, removeTagForest_noTag t ns⟩
  | .cons (.elem tag attrs cs) ns => by
      by_cases htag : tag = t
      · simp only [removeTagForest]
        rw [if_pos (beq_iff_eq.mpr htag)]
        exact removeTagForest_noTag t ns
      · simp only [removeTagForest]
        rw [if_neg (by simp [htag])]
        exact ⟨⟨htag, removeTagForest_noTag t cs⟩, removeTagForest_noTag t ns⟩

theorem removeTagForest_id (t : String) :
    ∀ ns : HForest, noTagForest t ns → removeTagForest t ns = ns
  | .nil, _ => rfl
  | .cons (.doctype s) ns, h => by
      simp only [removeTagForest]
      rw [removeTagForest_id t ns h.2]
  | .cons (.text s) ns, h => by
      simp only [removeTagForest]
      rw [removeTagForest_id t ns h.2]
  | .cons (.elem tag attrs cs) ns, h => by
      simp only [removeTagForest]
      rw [if_neg (by simp [h.1.1])]
      rw [removeTagForest_id t cs h.1.2, removeTagForest_id t ns h.2]

theorem removeTagForest_pres_noTag (t s : String) :
    ∀ ns : HForest, noTagForest s ns → noTagForest s (removeTagForest t ns)
  | .nil, h => h
  | .cons (.doctype _) ns, h => ⟨trivial, removeTagForest_pres_noTag t s ns h.2⟩
  | .cons (.text _) ns, h => ⟨trivial, removeTagForest_pres_noTag t s ns h.2⟩
  | .cons (.elem tag attrs cs) ns, h => by
      simp only [removeTagForest]
      by_cases htag : (tag == t) = true
      · rw [if_pos htag]
        exact removeTagForest_pres_noTag t s ns h.2
      · rw [if_neg htag]
        exact ⟨⟨h.1.1, removeTagForest_pres_noTag t s cs h.1.2⟩,
          removeTagForest_pres_noTag t s ns h.2⟩

theorem removeTagForest_pres_noAttr (t a : String) :
    ∀ ns : HForest, noAttrForest a ns → noAttrForest a (removeTagForest t ns)
  | .nil, h => h
  | .cons (.doctype _) ns, h => ⟨trivial, removeTagForest_pres_noAttr t a ns h.2⟩
  | .cons (.text _) ns, h => ⟨trivial, removeTagForest_pres_noAttr t a ns h.2⟩
  | .cons (.elem tag attrs cs) ns, h => by
      simp only [removeTagForest]
      by_cases htag : (tag == t) = true
      · rw [if_pos htag]
        exact removeTagForest_pres_noAttr t a ns h.2
      · rw [if_neg htag]
        exact ⟨⟨h.1.1, removeTagForest_pres_noAttr t a cs h.1.2⟩,
          removeTagForest_pres_noAttr t a ns h.2⟩

theorem removeTagForest_pres_svgOk (t : String) :
    ∀ ns : HForest, svgOkForest ns → svgOkForest (removeTagForest t ns)
  | .nil, h => h
  | .cons (.doctype _) ns, h => ⟨trivial, removeTagForest_pres_svgOk t ns h.2⟩
  | .cons (.text _) ns, h => ⟨trivial, removeTagForest_pres_svgOk t ns h.2⟩
  | .cons (.elem tag attrs cs) ns, h => by
      simp only [removeTagForest]
      by_cases htag : (tag == t) = true
      · rw [if_pos htag]
        exact removeTagForest_pres_svgOk t ns h.2
      · rw [if_neg htag]
        exact ⟨⟨h.1.1, removeTagForest_pres_svgOk t cs h.1.2⟩,
          removeTagForest_pres_svgOk t ns h.2⟩

theorem removeTagForest_pres_docHead (t v : String) :
    ∀ ns : HForest, docHeadOk v ns → docHeadOk v (removeTagForest t ns)
  | .nil, h => h
  | .cons (.doctype s) ns, h => h
  | .cons (.text s) ns, h => removeTagForest_pres_docHead t v ns h
  | .cons (.elem tag attrs cs) ns, h => by
      simp only [removeTagForest]
      by_cases htag : (tag == t) = true
      · rw [if_pos htag]
        exact removeTagForest_pres_docHead t v ns h
      · rw [if_neg htag]
        exact removeTagForest_pres_docHead t v ns h

/-! ### Doctype-replacement lemmas -/

theorem fixDoctype_docHead (v : String) :
    ∀ ns : HForest, docHeadOk v (fixDoctype v ns)
  | .nil => trivial
  | .cons (.doctype s) ns => rfl
  | .cons (.text s) ns => fixDoctype_docHead v ns
  | .cons (.elem tag attrs cs) ns => fixDoctype_docHead v ns

theorem fixDoctype_id (v : String) :
    ∀ ns : HForest, docHeadOk v ns → fixDoctype v ns = ns
  | .nil, _ => rfl
  | .cons (.doctype s) ns, h => by
      simp only [fixDoctype]
      rw [show s = v from h]
  | .cons (.text s) ns, h => by
      simp only [fixDoctype]
      rw [fixDoctype_id v ns h]
  | .cons (.elem tag attrs cs) ns, h => by
      simp only [fixDoctype]
      rw [fixDoctype_id v ns h]

/-! ### Html-root namespace lemmas -/

mutual
theorem fixHtmlNode_not_found :
    ∀ n : HNode, (fixHtmlNode n).2 = false → (fixHtmlNode n).1 = n
  | .doctype _, _ => rfl
  | .text _, _ => rfl
  | .elem tag attrs cs, h => by
      by_cases htag : (tag == "html") = true
      · exfalso
        simp only [fixHtmlNode, htag, if_true] at h
        exact absurd h (by simp)
      · simp only [fixHtmlNode, htag] at h ⊢
        simp only [Bool.false_eq_true, if_false] at h ⊢
        rw [fixHtmlForest_not_found cs h]
theorem fixHtmlForest_not_found :
    ∀ ns : HForest, (fixHtmlForest ns).2 = false → (fixHtmlForest ns).1 = ns
  | .nil, _ => rfl
  | .cons n ns, h => by
      by_cases hn : (fixHtmlNode n).2 = true
      · exfalso
        simp only [fixHtmlForest, hn, if_true] at h
        exact absurd h (by simp)
      · have hn2 : (fixHtmlNode n).2 = false := by
          simpa using hn
        simp only [fixHtmlForest, hn2, Bool.false_eq_true, if_false] at h ⊢
        rw [fixHtmlNode_not_found n hn2, fixHtmlForest_not_found ns h]
end

mutual
theorem fixHtmlNode_stable :
    ∀ n : HNode, (fixHtmlNode n).2 = true →
      fixHtmlNode (fixHtmlNode n).1 = ((fixHtmlNode n).1, true)
  | .doctype _, h => absurd h (by simp [fixHtmlNode])
  | .text _, h => absurd h (by simp [fixHtmlNode])
  | .elem tag attrs cs, h => by
      by_cases htag : (tag == "html") = true
      · simp only [fixHtmlNode, htag, if_true]
        rw [ensureAttr_of_truthy _ _ _ (ensureAttr_truthy attrs _ _ (by decide))]
      · simp only [fixHtmlNode, htag, Bool.false_eq_true, if_false] at h ⊢
        rw [fixHtmlForest_stable cs h]
theorem fixHtmlForest_stable :
    ∀ ns : HForest, (fixHtmlForest ns).2 = true →
      fixHtmlForest (fixHtmlForest ns).1 = ((fixHtmlForest ns).1, true)
  | .nil, h => absurd h (by simp [fixHtmlForest])
  | .cons n ns, h => by
      by_cases hn : (fixHtmlNode n).2 = true
      · simp only [fixHtmlForest, hn, if_true]
        rw [fixHtmlNode_stable n hn]
        simp
      · have hn2 : (fixHtmlNode n).2 = false := by
          simpa using hn
        simp only [fixHtmlForest, hn2, Bool.false_eq_true, if_false] at h ⊢
        rw [fixHtmlNode_not_found n hn2]
        rw [show fixHtmlNode n = ((fixHtmlNode n).1, (fixHtmlNode n).2) from rfl,
          fixHtmlNode_not_found n hn2, hn2]
        simp only [Bool.false_eq_true, if_false]
        rw [fixHtmlForest_stable ns h]
end

theorem fixHtmlDoc_idem (doc : HForest) :
    fixHtmlDoc (fixHtmlDoc doc) = fixHtmlDoc doc := by
  unfold fixHtmlDoc
  by_cases hf : (fixHtmlForest doc).2 = true
  · rw [fixHtmlForest_stable doc hf]
  · have hf2 : (fixHtmlForest doc).2 = false := by
      simpa using hf
    rw [fixHtmlForest_not_found doc hf2]
    rw [fixHtmlForest_not_found doc hf2]

mutual
theorem fixHtmlNode_pres_noTag (s : String) :
    ∀ n : HNode, noTagNode s n → noTagNode s (fixHtmlNode n).1
  | .doctype _, h => h
  | .text _, h => h
  | .elem tag attrs cs, h => by
      by_cases htag : (tag == "html") = true
      · simp only [fixHtmlNode, htag, if_true]
        exact ⟨h.1, h.2⟩
      · simp only [fixHtmlNode, htag, Bool.false_eq_true, if_false]
        exact ⟨h.1, fixHtmlForest_pres_noTag s cs h.2⟩
theorem fixHtmlForest_pres_noTag (s : String) :
    ∀ ns : HForest, noTagForest s ns → noTagForest s (fixHtmlForest ns).1
  | .nil, h => h
  | .cons n ns, h => by
      by_cases hn : (fixHtmlNode n).2 = true
      · simp only [fixHtmlForest, hn, if_true]
        exact ⟨fixHtmlNode_pres_noTag s n h.1, h.2⟩
      · have hn2 : (fixHtmlNode n).2 = false := by
          simpa using hn
        simp only [fixHtmlForest, hn2, Bool.false_eq_true, if_false]
        exact ⟨fixHtmlNode_pres_noTag s n h.1, fixHtmlForest_pres_noTag s ns h.2⟩
end

mutual
theorem fixHtmlNode_pres_noAttr (a : String) (ha : a ≠ "xmlns") :
    ∀ n : HNode, noAttrNode a n → noAttrNode a (fixHtmlNode n).1
  | .doctype _, h => h
  | .text _, h => h
  | .elem tag attrs cs, h => by
      by_cases htag : (tag == "html") = true
      · simp only [fixHtmlNode, htag, if_true]
        refine ⟨?_, h.2⟩
        unfold ensureAttr
        by_cases ht : strTruthy (getAttr attrs "xmlns") = true
        · rw [if_pos ht]
          exact h.1
        · rw [if_neg ht]
          intro kv hkv
          rcases setAttr_mem attrs "xmlns" _ kv hkv with h1 | h1
          · rw [h1]
            exact Ne.symm ha
          · exact h.1 kv h1
      · simp only [fixHtmlNode, htag, Bool.false_eq_true, if_false]
        exact ⟨h.1, fixHtmlForest_pres_noAttr a ha cs h.2⟩
theorem fixHtmlForest_pres_noAttr (a : String) (ha : a ≠ "xmlns") :
    ∀ ns : HForest, noAttrForest a ns → noAttrForest a (fixHtmlForest ns).1
  | .nil, h => h
  | .cons n ns, h => by
      by_cases hn : (fixHtmlNode n).2 = true
      · simp only [fixHtmlForest, hn, if_true]
        exact ⟨fixHtmlNode_pres_noAttr a ha n h.1, h.2⟩
      · have hn2 : (fixHtmlNode n).2 = false := by
          simpa using hn
        simp only [fixHtmlForest, hn2, Bool.false_eq_true, if_false]
        exact ⟨fixHtmlNode_pres_noAttr a ha n h.1,
          fixHtmlForest_pres_noAttr a ha ns h.2⟩
end

mutual
theorem fixHtmlNode_pres_svgOk :
    ∀ n : HNode, svgOkNode n → svgOkNode (fixHtmlNode n).1
  | .doctype _, h => h
  | .text _, h => h
  | .elem tag attrs cs, h => by
      by_cases htag : (tag == "html") = true
      · simp only [fixHtmlNode, htag, if_true]
        refine ⟨?_, h.2⟩
        intro he
        exfalso
        have : tag = "html" := beq_iff_eq.mp htag
        rw [this] at he
        exact absurd he (by decide)
      · simp only [fixHtmlNode, htag, Bool.false_eq_true, if_false]
        exact ⟨h.1, fixHtmlForest_pres_svgOk cs h.2⟩
theorem fixHtmlForest_pres_svgOk :
    ∀ ns : HForest, svgOkForest ns → svgOkForest (fixHtmlForest ns).1
  | .nil, h => h
  | .cons n ns, h => by
      by_cases hn : (fixHtmlNode n).2 = true
      · simp only [fixHtmlForest, hn, if_true]
        exact ⟨fixHtmlNode_pres_svgOk n h.1, h.2⟩
      · have hn2 : (fixHtmlNode n).2 = false := by
          simpa using hn
        simp only [fixHtmlForest, hn2, Bool.false_eq_true, if_false]
        exact ⟨fixHtmlNode_pres_svgOk n h.1, fixHtmlForest_pres_svgOk ns h.2⟩
end

theorem fixHtmlForest_pres_docHead (v : String) :
    ∀ ns : HForest, docHeadOk v ns → docHeadOk v (fixHtmlForest ns).1
  | .nil, h => h
  | .cons (.doctype s) ns, h => by
      simp only [fixHtmlForest, fixHtmlNode]
      exact h
  | .cons (.text s) ns, h => by
      simp only [fixHtmlForest, fixHtmlNode]
      exact fixHtmlForest_pres_docHead v ns h
  | .cons (.elem tag attrs cs) ns, h => by
      by_cases htag : (tag == "html") = true
      · simp only [fixHtmlForest, fixHtmlNode, htag, if_true]
        exact h
      · simp only [fixHtmlForest, fixHtmlNode, htag, Bool.false_eq_true, if_false]
        by_cases hcs : (fixHtmlForest cs).2 = true
        · simp only [hcs, if_true]
          exact h
        · have hcs2 : (fixHtmlForest cs).2 = false := by
            simpa using hcs
          simp only [hcs2, Bool.false_eq_true, if_false]
          exact fixHtmlForest_pres_docHead v ns h

/-! ### Composite cleanup lemmas -/

theorem commonCleanup_svgOk (d : HForest) : svgOkForest (commonCleanup d) := by
  unfold commonCleanup fixHtmlDoc
  exact fixHtmlForest_pres_svgOk _
    (removeTagForest_pres_svgOk _ _
      (renameTagForest_pres_svgOk "figcaption" "div" (by decide) (by decide) _
        (svgNsForest_svgOk _)))

theorem commonCleanup_noTag_figcaption (d : HForest) :
    noTagForest "figcaption" (commonCleanup d) := by
  unfold commonCleanup fixHtmlDoc
  exact fixHtmlForest_pres_noTag _ _
    (removeTagForest_pres_noTag _ _ _
      (renameTagForest_noTag "figcaption" "div" (by decide) _))

theorem commonCleanup_noTag_base (d : HForest) :
    noTagForest "base" (commonCleanup d) := by
  unfold commonCleanup fixHtmlDoc
  exact fixHtmlForest_pres_noTag _ _ (removeTagForest_noTag "base" _)

theorem commonCleanup_fixed (d : HForest) :
    commonCleanup (commonCleanup d) = commonCleanup d := by
  conv_lhs => rw [commonCleanup]
  rw [svgNsForest_id _ (commonCleanup_svgOk d)]
  rw [renameTagForest_id _ _ _ (commonCleanup_noTag_figcaption d)]
  rw [removeTagForest_id _ _ (commonCleanup_noTag_base d)]
  unfold commonCleanup
  exact fixHtmlDoc_idem _

theorem commonCleanup_pres_noTag (s : String) (hs : ¬(s = "div"))
    (d : HForest) (h : noTagForest s d) : noTagForest s (commonCleanup d) := by
  unfold commonCleanup fixHtmlDoc
  exact fixHtmlForest_pres_noTag _ _
    (removeTagForest_pres_noTag _ _ _
      (renameTagForest_pres_noTag "figcaption" "div" s hs _
        (svgNsForest_pres_noTag _ _ h)))

theorem commonCleanup_pres_noAttr (a : String) (h1 : a ≠ "xmlns")
    (h2 : a ≠ "xmlns:xlink") (d : HForest) (h : noAttrForest a d) :
    noAttrForest a (commonCleanup d) := by
  unfold commonCleanup fixHtmlDoc
  exact fixHtmlForest_pres_noAttr a h1 _
    (removeTagForest_pres_noAttr _ _ _
      (renameTagForest_pres_noAttr _ _ _ _
        (svgNsForest_pres_noAttr a h1 h2 _ h)))

theorem commonCleanup_pres_docHead (v : String) (d : HForest)
    (h : docHeadOk v d) : docHeadOk v (commonCleanup d) := by
  unfold commonCleanup fixHtmlDoc
  exact fixHtmlForest_pres_docHead _ _
    (removeTagForest_pres_docHead _ _ _
      (renameTagForest_pres_docHead _ _ _ _
        (svgNsForest_pres_docHead _ _ h)))

theorem v2Cleanup_docHead (d : HForest) :
    docHeadOk xhtml11Doctype (v2Cleanup d) := by
  unfold v2Cleanup removeAllAttributes
  exact renameTagForest_pres_docHead _ _ _ _
    (renameTagForest_pres_docHead _ _ _ _
      (foldAttr_pres_docHead _ _ _ (fixDoctype_docHead _ _)))

theorem v2Cleanup_noAttr (d : HForest) (a : String)
    (ha : a ∈ removeAttributesList) : noAttrForest a (v2Cleanup d) := by
  unfold v2Cleanup removeAllAttributes
  exact renameTagForest_pres_noAttr _ _ _ _
    (renameTagForest_pres_noAttr _ _ _ _
      (foldAttr_noAttr _ a ha _))

theorem v2Cleanup_noTag_nav (d : HForest) : noTagForest "nav" (v2Cleanup d) := by
  unfold v2Cleanup
  exact renameTagForest_pres_noTag "section" "div" "nav" (by decide) _
    (renameTagForest_noTag "nav" "div" (by decide) _)

theorem v2Cleanup_noTag_section (d : HForest) :
    noTagForest "section" (v2Cleanup d) := by
  unfold v2Cleanup
  exact renameTagForest_noTag "section" "div" (by decide) _

theorem v2Cleanup_id (d : HForest)
    (h1 : docHeadOk xhtml11Doctype d)
    (h2 : ∀ a ∈ removeAttributesList, noAttrForest a d)
    (h3 : noTagForest "nav" d) (h4 : noTagForest "section" d) :
    v2Cleanup d = d := by
  unfold v2Cleanup removeAllAttributes
  rw [fixDoctype_id _ _ h1, foldAttr_id _ _ h2,
    renameTagForest_id _ _ _ h3, renameTagForest_id _ _ _ h4]

set_option maxHeartbeats 1000000 in
/-- C7: the structural cleanup is idempotent — running `_cleanup_soup`
(for any version string, hence also for the "3.0" used by
`process_ebook_loan` and for the stricter "2.0" branch) a second time
on already-cleaned content changes nothing: cleanup composed with
itself equals cleanup. -/
theorem cleanupSoup_idempotent (version : String) (doc : HForest) :
    cleanupSoup version (cleanupSoup version doc) = cleanupSoup version doc := by
  unfold cleanupSoup
  by_cases hv : version = "2.0"
  · rw [if_pos hv, if_pos hv]
    have hside : ∀ a ∈ removeAttributesList, a ≠ "xmlns" ∧ a ≠ "xmlns:xlink" := by
      decide
    have hd : v2Cleanup (commonCleanup (v2Cleanup doc)) =
        commonCleanup (v2Cleanup doc) := by
      apply v2Cleanup_id
      · exact commonCleanup_pres_docHead _ _ (v2Cleanup_docHead doc)
      · intro a ha
        exact commonCleanup_pres_noAttr a (hside a ha).1 (hside a ha).2 _
          (v2Cleanup_noAttr doc a ha)
      · exact commonCleanup_pres_noTag "nav" (by decide) _
          (v2Cleanup_noTag_nav doc)
      · exact commonCleanup_pres_noTag "section" (by decide) _
          (v2Cleanup_noTag_section doc)
    rw [hd]
    exact commonCleanup_fixed _
  · rw [if_neg hv, if_neg hv]
    exact commonCleanup_fixed doc

end Odmpy
